import Mathlib

/-!
Verification of the VSS parsing engine (VSS-to-VHAL signal ingestion pipeline).

The development shallowly embeds the runtime ingestion pipeline:
the line-oriented socket framer (VssSocketComm.cpp), the message
orchestrator (VssVehicleEmulator.cpp), and the type-conversion engine
(ConverterUtils, AndroidVssConverter).  Strings are modelled as lists of
characters, machine floats as rationals, and the stateful orchestrator as
an explicit state-passing function.  Components whose implementation files
are not part of the repository snapshot (the ConverterUtils and
AndroidVssConverter translation units; only their headers and the design
documents are present) are modelled from the specification and are marked
as such in their doc comments.
-/

namespace VssParsing

/-- Whitespace set used throughout the C++ code: the character class
given to find_last_not_of and find_first_not_of is " \t\r\n". -/
def isWs (c : Char) : Bool := c = ' ' || c = '\t' || c = '\r' || c = '\n'

/-- Trim leading and trailing whitespace, as done by the two erase calls in
VssVehicleEmulator::parseVssMessage (lines 180-183). -/
def trimWs (cs : List Char) : List Char :=
  ((cs.dropWhile isWs).reverse.dropWhile isWs).reverse

/-- Trim trailing whitespace only, as done by the single erase call in
VssSocketComm::readMessage (line 220). -/
def trimTrailingWs (cs : List Char) : List Char :=
  (cs.reverse.dropWhile isWs).reverse

/-- Index of the first occurrence of a character, mirroring
std::string::find which returns the least matching position. -/
def findChar (cs : List Char) (c : Char) : Option Nat :=
  cs.findIdx? (fun x => x = c)

/-- VssVehicleEmulator::parseVssMessage (VssVehicleEmulator.cpp lines
166-191): locate the first '=', reject a missing '=', an '=' at position 0
or at the last position, split, trim both sides, and reject an empty
trimmed path or value.  Returns the (path, value) pair on success. -/
def parseVssMessage (message : List Char) : Option (List Char × List Char) :=
  match findChar message '=' with
  | none => none
  | some equalsPos =>
    if equalsPos = 0 || equalsPos = message.length - 1 then none
    else
      let vssPath := trimWs (message.take equalsPos)
      let vssValue := trimWs (message.drop (equalsPos + 1))
      if vssPath.isEmpty || vssValue.isEmpty then none
      else some (vssPath, vssValue)

/-!
Type conversion engine.  The ConverterUtils implementation file is not in
the repository snapshot (only the header ConverterUtils.h with documented
declarations and the generator design documents are), so the function
bodies below are modelled from the specification and the header docs.
Machine floats are modelled as rationals.
-/

/-- ASCII lower-casing of one character, as std::tolower behaves on the
literals involved. -/
def toLowerChar (c : Char) : Char :=
  if 'A' ≤ c && c ≤ 'Z' then Char.ofNat (c.toNat + 32) else c

/-- ConverterUtils::toLower, modelled from the header declaration:
lower-case every character of the string. -/
def toLower (cs : List Char) : List Char := cs.map toLowerChar

/-- Modelled from the spec: ConverterUtils::stringToBool, whose
implementation file is missing.  Per the header doc (ConverterUtils.h
lines 101-108) and spec section 4.2 it accepts, case-insensitively,
exactly "true"/"1"/"yes"/"on" as true and "false"/"0"/"no"/"off" as
false; any other string is a parse error, modelled as none. -/
def stringToBool (cs : List Char) : Option Bool :=
  let t := toLower cs
  if t = "true".data || t = "1".data || t = "yes".data || t = "on".data then
    some true
  else if t = "false".data || t = "0".data || t = "no".data || t = "off".data then
    some false
  else none

/-- Numeric value of a decimal digit character. -/
def digitToNat (c : Char) : Nat := c.toNat - 48

/-- Natural number denoted by a list of decimal digit characters. -/
def natOfDigits (ds : List Char) : Nat :=
  ds.foldl (fun a c => a * 10 + digitToNat c) 0

/-- Modelled from the spec: unsigned decimal parsing for
ConverterUtils::stringToFloat, whose implementation file is missing.
Spec section 4.2: numeric parsing rejects a non-numeric remainder.
Accepts digits optionally followed by a point and further digits. -/
def parseUnsigned (cs : List Char) : Option ℚ :=
  let intPart := cs.takeWhile Char.isDigit
  let rest := cs.dropWhile Char.isDigit
  if intPart.isEmpty then none
  else
    match rest with
    | [] => some (natOfDigits intPart)
    | '.' :: fracRest =>
      let fracPart := fracRest.takeWhile Char.isDigit
      let rest2 := fracRest.dropWhile Char.isDigit
      if fracPart.isEmpty || !rest2.isEmpty then none
      else some ((natOfDigits intPart : ℚ) +
                 (natOfDigits fracPart : ℚ) / (10 : ℚ) ^ fracPart.length)
    | _ => none

/-- Modelled from the spec: ConverterUtils::stringToFloat, whose
implementation file is missing.  Whitespace-trimmed signed decimal text;
anything else is a parse error, modelled as none. -/
def stringToFloat (cs : List Char) : Option ℚ :=
  match trimWs cs with
  | '-' :: rest => (parseUnsigned rest).map (fun q => -q)
  | '+' :: rest => parseUnsigned rest
  | t => parseUnsigned t

/-- Modelled from the spec: signed integer text for
ConverterUtils::stringToInt32 and stringToInt64, whose implementation
file is missing.  Digits only after an optional sign; a non-numeric
remainder is a parse error. -/
def stringToInt (cs : List Char) : Option ℤ :=
  match trimWs cs with
  | '-' :: ds =>
      if !ds.isEmpty && ds.all Char.isDigit then some (-(natOfDigits ds : ℤ)) else none
  | '+' :: ds =>
      if !ds.isEmpty && ds.all Char.isDigit then some ((natOfDigits ds : ℤ)) else none
  | ds =>
      if !ds.isEmpty && ds.all Char.isDigit then some ((natOfDigits ds : ℤ)) else none

/-- Modelled from the spec: ConverterUtils::stringToInt32 with the
overflow rule of the spec (section 4.2): a value that parses but does not fit
the 32-bit width is a parse error, not wrapped. -/
def stringToInt32 (cs : List Char) : Option ℤ :=
  match stringToInt cs with
  | none => none
  | some n => if -(2 ^ 31) ≤ n && n < 2 ^ 31 then some n else none

/-- Modelled from the spec: ConverterUtils::stringToInt64 with the
64-bit overflow rule. -/
def stringToInt64 (cs : List Char) : Option ℤ :=
  match stringToInt cs with
  | none => none
  | some n => if -(2 ^ 63) ≤ n && n < 2 ^ 63 then some n else none

/-- Numeric value of one hex digit, or none. -/
def hexVal (c : Char) : Option Nat :=
  if c.isDigit then some (c.toNat - 48)
  else if 'a' ≤ c && c ≤ 'f' then some (c.toNat - 87)
  else if 'A' ≤ c && c ≤ 'F' then some (c.toNat - 55)
  else none

/-- Modelled from the spec: ConverterUtils::hexStringToBytes, whose
implementation file is missing.  Hex digit pairs only; an odd length or
an invalid digit is a parse error. -/
def hexStringToBytes : List Char → Option (List Nat)
  | [] => some []
  | [_] => none
  | c1 :: c2 :: rest =>
    match hexVal c1, hexVal c2, hexStringToBytes rest with
    | some hi, some lo, some bs => some ((hi * 16 + lo) :: bs)
    | _, _, _ => none

/-- ConverterUtils::applyLinearScaling, per its header doc
(ConverterUtils.h lines 182-189): value * multiplier + offset. -/
def applyLinearScaling (value multiplier offset : ℚ) : ℚ :=
  value * multiplier + offset

/-- ConverterUtils::clampFloat, per its header doc (ConverterUtils.h
lines 164-171) and the generator template: values below the minimum are
set to the minimum, values above the maximum to the maximum. -/
def clampFloat (value minVal maxVal : ℚ) : ℚ :=
  if value < minVal then minVal
  else if value > maxVal then maxVal
  else value

/-!
Conversion rules and the rule-driven numeric conversion, following the
generator template reproduced in VSS_CONVERTER_IMPLEMENTATION_COMPLETE.md:
scaling is emitted only when the multiplier differs from 1 (resp. the
offset from 0), and the bounds checks are emitted per present bound,
minimum first, after the scaling lines.
-/

/-- Data kinds of the conversion rules (spec section 3). -/
inductive DataKind
  | float | int32 | int64 | boolean | utf8 | bytes
deriving DecidableEq, Repr

/-- One conversion rule of the registry (spec section 3).  Real numbers
are modelled as rationals; absent bounds as none. -/
structure ConversionRule where
  targetId : ℤ
  areaId : ℤ
  kind : DataKind
  unitMultiplier : ℚ
  unitOffset : ℚ
  minValue : Option ℚ
  maxValue : Option ℚ
deriving DecidableEq, Repr

/-- Numeric conversion as the generator template emits it
(VSS_CONVERTER_IMPLEMENTATION_COMPLETE.md, Unit Conversion Support and
Range Validation sections): parse, multiply when the multiplier is not 1,
add the offset when it is not 0, then clamp at each present bound,
minimum before maximum. -/
def convertNumericRule (rule : ConversionRule) (raw : List Char) : Option ℚ :=
  (stringToFloat raw).map (fun v0 =>
    let v1 := if rule.unitMultiplier ≠ 1 then v0 * rule.unitMultiplier else v0
    let v2 := if rule.unitOffset ≠ 0 then v1 + rule.unitOffset else v1
    let v3 := match rule.minValue with
      | some lo => if v2 < lo then lo else v2
      | none => v2
    match rule.maxValue with
      | some hi => if v3 > hi then hi else v3
      | none => v3)

/-- Clamp against the present bounds, written from the words of the
specification: clamp to the interval when both bounds are present, to the
one-sided bound otherwise. -/
def clampBounds (v : ℚ) : Option ℚ → Option ℚ → ℚ
  | some lo, some hi => clampFloat v lo hi
  | some lo, none => if v < lo then lo else v
  | none, some hi => if v > hi then hi else v
  | none, none => v

/-- Numeric conversion written from the words of the specification
(sections 4.2 and 8): clamp(scale(parse(raw))), with scale the linear
scaling and clamp applied to the present bounds. -/
def convertSpecNumeric (rule : ConversionRule) (raw : List Char) : Option ℚ :=
  (stringToFloat raw).map (fun v =>
    clampBounds (applyLinearScaling v rule.unitMultiplier rule.unitOffset)
      rule.minValue rule.maxValue)

/-- The rule of the end-to-end speed example in the spec: multiplier 3.6,
bounds [0, 300]. -/
def speedRule : ConversionRule :=
  { targetId := 0x11600207
    areaId := 0
    kind := DataKind.float
    unitMultiplier := 18 / 5
    unitOffset := 0
    minValue := some 0
    maxValue := some 300 }

/-!
The orchestrator: VssVehicleEmulator.cpp.  The converter the
orchestrator calls (AndroidVssConverter::convertVssToVhal) lives in a
translation unit that is not in the repository snapshot, so
processVssMessage takes the converter and the property-store update
(VehicleEmulator::doSetProperty, also external) as parameters; a
registry-driven converter modelled from the spec is given separately.
Exceptions thrown inside the try block of processVssMessage are modelled
as explicit outcome constructors.
-/

/-- Tagged union of converted values (spec section 3). -/
inductive VhalValue
  | floatVal (q : ℚ)
  | int32Val (n : ℤ)
  | int64Val (n : ℤ)
  | boolVal (b : Bool)
  | stringVal (s : List Char)
  | bytesVal (bs : List Nat)
deriving DecidableEq, Repr

/-- A converted property value: identifier, area and tagged value. -/
structure VehiclePropValue where
  prop : ℤ
  areaId : ℤ
  value : VhalValue
deriving DecidableEq, Repr

/-- Outcome of AndroidVssConverter::convertVssToVhal as seen by the
orchestrator: a converted value, a false return, or a thrown exception
(caught at VssVehicleEmulator.cpp line 160). -/
inductive ConvResult
  | ok (pv : VehiclePropValue)
  | fail
  | exn
deriving DecidableEq, Repr

/-- Outcome of VssVehicleEmulator::updateVhalProperty as seen by the
caller: a true return (store updated), a false return, or a thrown
exception. -/
inductive UpdResult
  | ok
  | fail
  | exn
deriving DecidableEq, Repr

/-- State of the VssVehicleEmulator: the two lifecycle flags, the three
statistics counters (VssVehicleEmulator.h) and the downstream property
store keyed by (property id, area id). -/
structure EmuState where
  mActive : Bool
  mInitialized : Bool
  mMessagesProcessed : Nat
  mMessagesConverted : Nat
  mConversionErrors : Nat
  store : List ((ℤ × ℤ) × VhalValue)
deriving DecidableEq, Repr

/-- VssVehicleEmulator::isActive (lines 119-122): both flags set. -/
def isActive (s : EmuState) : Bool := s.mActive && s.mInitialized

/-- Store update on successful property set: the entry for the key is
replaced, other entries are kept. -/
def storeSet (st : List ((ℤ × ℤ) × VhalValue)) (pv : VehiclePropValue) :
    List ((ℤ × ℤ) × VhalValue) :=
  ((pv.prop, pv.areaId), pv.value) ::
    st.filter (fun e => decide (e.1 ≠ (pv.prop, pv.areaId)))

/-- VssVehicleEmulator::processVssMessage (lines 124-164): an inactive
emulator ignores the message; otherwise the processed counter is
incremented, then exactly one of the error paths (parse failure,
converter failure or exception, update failure or exception) increments
the error counter, or the success path increments the converted counter
and updates the store. -/
def processVssMessage (conv : List Char → List Char → ConvResult)
    (upd : VehiclePropValue → UpdResult)
    (s : EmuState) (message : List Char) : EmuState :=
  if !(isActive s) then s
  else
    let s1 := { s with mMessagesProcessed := s.mMessagesProcessed + 1 }
    match parseVssMessage message with
    | none => { s1 with mConversionErrors := s1.mConversionErrors + 1 }
    | some (vssPath, vssValue) =>
      match conv vssPath vssValue with
      | ConvResult.fail => { s1 with mConversionErrors := s1.mConversionErrors + 1 }
      | ConvResult.exn => { s1 with mConversionErrors := s1.mConversionErrors + 1 }
      | ConvResult.ok pv =>
        match upd pv with
        | UpdResult.ok =>
          { s1 with mMessagesConverted := s1.mMessagesConverted + 1
                    store := storeSet s1.store pv }
        | UpdResult.fail => { s1 with mConversionErrors := s1.mConversionErrors + 1 }
        | UpdResult.exn => { s1 with mConversionErrors := s1.mConversionErrors + 1 }

/-- Processing a sequence of framed messages in arrival order
(spec section 5: conversions run synchronously on the read thread). -/
def processAll (conv : List Char → List Char → ConvResult)
    (upd : VehiclePropValue → UpdResult)
    (s : EmuState) (messages : List (List Char)) : EmuState :=
  messages.foldl (processVssMessage conv upd) s

/-- Modelled from the spec: AndroidVssConverter::convertVssToVhal, whose
implementation file is missing (only the generator design documents
describe it).  The registry is looked up with the signal path; an unknown
path is a failed conversion (spec section 4.4), and a known rule drives
the kind-directed conversion of sections 4.1 and 4.2. -/
def convertVssToVhal (registry : List Char → Option ConversionRule)
    (vssPath vssValue : List Char) : ConvResult :=
  match registry vssPath with
  | none => ConvResult.fail
  | some rule =>
    let mk : VhalValue → ConvResult :=
      fun v => ConvResult.ok ⟨rule.targetId, rule.areaId, v⟩
    match rule.kind with
    | DataKind.float =>
      match convertNumericRule rule vssValue with
      | none => ConvResult.fail
      | some q => mk (VhalValue.floatVal q)
    | DataKind.int32 =>
      match stringToInt32 vssValue with
      | none => ConvResult.fail
      | some n => mk (VhalValue.int32Val n)
    | DataKind.int64 =>
      match stringToInt64 vssValue with
      | none => ConvResult.fail
      | some n => mk (VhalValue.int64Val n)
    | DataKind.boolean =>
      match stringToBool vssValue with
      | none => ConvResult.fail
      | some b => mk (VhalValue.boolVal b)
    | DataKind.utf8 => mk (VhalValue.stringVal vssValue)
    | DataKind.bytes =>
      match hexStringToBytes vssValue with
      | none => ConvResult.fail
      | some bs => mk (VhalValue.bytesVal bs)

/-!
The message framer: VssSocketComm::readMessage (lines 198-250).  The
sequence of successful recv results on the current peer connection is
modelled as a list of byte chunks; an exhausted list models the peer
disconnecting (recv returning 0), and timeouts merely continue the loop,
so they are not represented.  The local variable message of readMessage
is the accumulation buffer; note that it is a local of the function, so
whatever remains in it when readMessage returns is gone.
-/

/-- One call of VssSocketComm::readMessage, starting from buffer buf:
append each received chunk to the buffer, look for the first newline of
the buffer, and on finding one split there, trim trailing whitespace of
the completed record, and return it when nonempty; an empty record is
dropped and reading continues with the remainder as buffer.  When a
nonempty record is returned, the remainder past the newline is dropped,
exactly as in the C++ code, where it sits in a local variable at the
return on line 224.  Returns the record and the chunks not yet consumed,
or none when the peer disconnects first. -/
def readMessageFrom : List (List Char) → List Char → Option (List Char × List (List Char))
  | [], _ => none
  | chunk :: rest, buf =>
    let message := buf ++ chunk
    match findChar message '\n' with
    | none => readMessageFrom rest message
    | some newlinePos =>
      let complete := trimTrailingWs (message.take newlinePos)
      if complete.isEmpty then readMessageFrom rest (message.drop (newlinePos + 1))
      else some (complete, rest)

/-- The read loop (VssSocketComm::readLoop, lines 146-166) calls
readMessage repeatedly while connected; each call starts with a fresh,
empty local buffer.  The fuel argument bounds the number of calls; one
more call than there are chunks always suffices because every returning
call consumes at least one chunk. -/
def readAllMessagesAux : Nat → List (List Char) → List (List Char)
  | 0, _ => []
  | fuel + 1, chunks =>
    match readMessageFrom chunks [] with
    | none => []
    | some (msg, rest) => msg :: readAllMessagesAux fuel rest

/-- All records the framer yields for a given fragmentation of the byte
stream into recv chunks. -/
def readAllMessages (chunks : List (List Char)) : List (List Char) :=
  readAllMessagesAux (chunks.length + 1) chunks

/-!
The connection listener lifecycle: VssSocketComm.cpp.  The state captures
the running flag, the active-connection flag, whether the two sockets are
open, and whether the read thread is live (spawned and not yet joined).
The blocking system calls are modelled as events delivered to one
iteration of the read loop; emitted actions record which calls the
iteration performs, so that the absence of an outbound connect is a
statement about the model rather than about its construction alone.
-/

/-- Listener state (fields of VssSocketComm and its base VssCommConn). -/
structure SockState where
  mRunning : Bool
  mHasActiveConnection : Bool
  serverSockOpen : Bool
  clientSockOpen : Bool
  threadLive : Bool
deriving DecidableEq, Repr

/-- Externally determined outcome of the blocking call an iteration of
the read loop performs. -/
inductive NetEvent
  | acceptOk
  | acceptTimeout
  | recvChunk (bytes : List Char)
  | recvTimeout
  | recvZero
  | recvError
deriving DecidableEq, Repr

/-- System calls an iteration performs, as visible actions. -/
inductive SockAction
  | acceptCall
  | recvCall
  | sleepCall
  | closeClientCall
  | connectOutbound
  | yieldBytes (bytes : List Char)
deriving DecidableEq, Repr

/-- VssSocketComm::closeSocket (lines 133-144): close the client socket
when open, clearing the active-connection flag, then close the server
socket when open. -/
def closeSocket (s : SockState) : SockState :=
  let s1 := if s.clientSockOpen then
    { s with clientSockOpen := false, mHasActiveConnection := false }
  else s
  if s1.serverSockOpen then { s1 with serverSockOpen := false } else s1

/-- VssSocketComm::start (lines 50-66): an already running listener
returns true unchanged; otherwise the server socket is set up (bindOk
says whether socket, bind and listen succeed; on failure setupServerSocket
closes what it opened and start returns false), the running flag is set
and the read thread is spawned. -/
def start (bindOk : Bool) (s : SockState) : Bool × SockState :=
  if s.mRunning then (true, s)
  else if bindOk then
    (true, { s with serverSockOpen := true, mRunning := true, threadLive := true })
  else
    (false, closeSocket { s with serverSockOpen := true })

/-- VssSocketComm::stop (lines 68-83): a stopped listener returns at
once; otherwise the running flag is cleared, the sockets are closed, and
the read thread is joined — the join returns because the read loop
and readMessage recheck mRunning on every iteration and exit once it is
false (readLoopStep below maps every event of a non-running state to no
transition and no action). -/
def stop (s : SockState) : SockState :=
  if !s.mRunning then s
  else
    let s2 := closeSocket { s with mRunning := false }
    { s2 with threadLive := false }

/-- One iteration of VssSocketComm::readLoop (lines 146-166) together
with the recv handling of readMessage (lines 206-247): a non-running
listener does nothing (the loop has exited); without an active connection
the loop tries accept, sleeping briefly on failure (lines 150-154); with
a connection it receives, and a recv of 0 (peer disconnect, lines
227-233) or a non-timeout error (lines 239-244) closes the client socket
and clears the active-connection flag, leaving the running flag and the
server socket untouched. -/
def readLoopStep (s : SockState) (e : NetEvent) : SockState × List SockAction :=
  if !s.mRunning then (s, [])
  else if !s.mHasActiveConnection then
    match e with
    | NetEvent.acceptOk =>
      ({ s with mHasActiveConnection := true, clientSockOpen := true },
       [SockAction.acceptCall])
    | _ => (s, [SockAction.acceptCall, SockAction.sleepCall])
  else
    match e with
    | NetEvent.recvChunk bytes => (s, [SockAction.recvCall, SockAction.yieldBytes bytes])
    | NetEvent.recvZero =>
      ({ s with mHasActiveConnection := false, clientSockOpen := false },
       [SockAction.recvCall, SockAction.closeClientCall])
    | NetEvent.recvError =>
      ({ s with mHasActiveConnection := false, clientSockOpen := false },
       [SockAction.recvCall, SockAction.closeClientCall])
    | _ => (s, [SockAction.recvCall])

/-!
Auxiliary definitions used by the theorems: the description, in the specification, of a malformed message, and concrete sample states,
converters and updaters for witness instantiations.
-/

/-- A malformed message in the words of the specification (section 4.4):
no '=', first '=' at position 0 or at the final character, or an empty
path or value after trimming the split parts. -/
def malformedSpec (cs : List Char) : Prop :=
  findChar cs '=' = none ∨
  findChar cs '=' = some 0 ∨
  findChar cs '=' = some (cs.length - 1) ∨
  ∃ i, findChar cs '=' = some i ∧
    (trimWs (cs.take i) = [] ∨ trimWs (cs.drop (i + 1)) = [])

/-- A sample active emulator state with nonzero counters. -/
def emuSample : EmuState :=
  { mActive := true
    mInitialized := true
    mMessagesProcessed := 5
    mMessagesConverted := 3
    mConversionErrors := 2
    store := [((7, 0), VhalValue.floatVal 1)] }

/-- A sample emulator state that has been shut down. -/
def emuShutdownSample : EmuState :=
  { emuSample with mActive := false, mInitialized := false }

/-- A converter that always fails, for witness instantiation. -/
def convAlwaysFail : List Char → List Char → ConvResult := fun _ _ => ConvResult.fail

/-- A property-store updater that always succeeds, for witness
instantiation. -/
def updAlwaysOk : VehiclePropValue → UpdResult := fun _ => UpdResult.ok

/-- An empty rule registry, for witness instantiation. -/
def registryEmpty : List Char → Option ConversionRule := fun _ => none

/-- A sample listener state: running, with an active peer connection. -/
def sockSample : SockState :=
  { mRunning := true
    mHasActiveConnection := true
    serverSockOpen := true
    clientSockOpen := true
    threadLive := true }

/-!
Theorems for the claims.
-/

/-- C2: the framer does not preserve bytes received after a record
terminator.  When one recv returns the eight bytes "A=1\nB=2\n", the code
yields only the record "A=1" and silently discards "B=2\n": readMessage
computes the remainder past the newline into its local buffer and then
returns, destroying it.  The same two records arriving in two separate
recv calls are both yielded, isolating the loss to coalesced reads. -/
theorem readMessage_loses_bytes_after_terminator :
    readAllMessages ["A=1\nB=2\n".data] = ["A=1".data] ∧
    readAllMessages ["A=1\n".data, "B=2\n".data] = ["A=1".data, "B=2".data] := by
  constructor <;> decide

/-- C9: an emulator that is not active (not initialized, or already shut
down) ignores the message entirely: no counter changes and no store
mutation. -/
theorem inactive_message_ignored :
    ∀ (conv : List Char → List Char → ConvResult) (upd : VehiclePropValue → UpdResult)
      (s : EmuState) (msg : List Char),
      isActive s = false → processVssMessage conv upd s msg = s := by
  intro conv upd s msg h
  simp [processVssMessage, h]

/-- C9 witness: the shut-down sample state is returned unchanged. -/
theorem inactive_message_ignored_witness :
    isActive emuShutdownSample = false ∧
    processVssMessage convAlwaysFail updAlwaysOk emuShutdownSample
      ("Vehicle.Speed=1".data) = emuShutdownSample :=
  ⟨by decide,
   inactive_message_ignored convAlwaysFail updAlwaysOk emuShutdownSample
     ("Vehicle.Speed=1".data) (by decide)⟩

/-- C10: calling start while the listener is already running returns true
and changes nothing: no new server socket is bound and no second read
thread is spawned. -/
theorem start_idempotent_when_running :
    ∀ (s : SockState) (bindOk : Bool),
      s.mRunning = true → start bindOk s = (true, s) := by
  intro s bindOk h
  simp [start, h]

/-- C10 witness: starting the running sample listener again returns true
with the state unchanged. -/
theorem start_idempotent_when_running_witness :
    sockSample.mRunning = true ∧ start false sockSample = (true, sockSample) :=
  ⟨by decide, start_idempotent_when_running sockSample false (by decide)⟩

/-- C8: every processed message of an active emulator increments the
processed counter by exactly one and exactly one of the converted and
error counters by exactly one, whichever of the outcome paths (parse
failure, converter failure or exception, update failure or exception,
success) is taken; hence the invariant processed = converted + errors is
preserved, and no counter decreases. -/
theorem counters_step_exactly_one :
    ∀ (conv : List Char → List Char → ConvResult) (upd : VehiclePropValue → UpdResult)
      (s : EmuState) (msg : List Char),
      isActive s = true →
      (processVssMessage conv upd s msg).mMessagesProcessed = s.mMessagesProcessed + 1 ∧
      ((processVssMessage conv upd s msg).mMessagesConverted = s.mMessagesConverted + 1 ∧
         (processVssMessage conv upd s msg).mConversionErrors = s.mConversionErrors ∨
       (processVssMessage conv upd s msg).mConversionErrors = s.mConversionErrors + 1 ∧
         (processVssMessage conv upd s msg).mMessagesConverted = s.mMessagesConverted) ∧
      (s.mMessagesProcessed = s.mMessagesConverted + s.mConversionErrors →
        (processVssMessage conv upd s msg).mMessagesProcessed =
          (processVssMessage conv upd s msg).mMessagesConverted +
            (processVssMessage conv upd s msg).mConversionErrors) := by
  intro conv upd s msg h
  rcases hp : parseVssMessage msg with _ | ⟨p, v⟩
  · simp [processVssMessage, h, hp]
    omega
  · rcases hc : conv p v with pv | _ | _
    · rcases hu : upd pv <;> simp [processVssMessage, h, hp, hc, hu] <;> omega
    · simp [processVssMessage, h, hp, hc]
      omega
    · simp [processVssMessage, h, hp, hc]
      omega

/-- C8 witness: processing one message in the sample state (counters
5 = 3 + 2) moves the counters to 6, 3, 3, matching the statement. -/
theorem counters_step_exactly_one_witness :
    isActive emuSample = true ∧
    ((processVssMessage convAlwaysFail updAlwaysOk emuSample
        ("Vehicle.Speed=1".data)).mMessagesProcessed = emuSample.mMessagesProcessed + 1 ∧
      ((processVssMessage convAlwaysFail updAlwaysOk emuSample
          ("Vehicle.Speed=1".data)).mMessagesConverted = emuSample.mMessagesConverted + 1 ∧
         (processVssMessage convAlwaysFail updAlwaysOk emuSample
            ("Vehicle.Speed=1".data)).mConversionErrors = emuSample.mConversionErrors ∨
       (processVssMessage convAlwaysFail updAlwaysOk emuSample
          ("Vehicle.Speed=1".data)).mConversionErrors = emuSample.mConversionErrors + 1 ∧
         (processVssMessage convAlwaysFail updAlwaysOk emuSample
            ("Vehicle.Speed=1".data)).mMessagesConverted = emuSample.mMessagesConverted) ∧
      (emuSample.mMessagesProcessed = emuSample.mMessagesConverted + emuSample.mConversionErrors →
        (processVssMessage convAlwaysFail updAlwaysOk emuSample
            ("Vehicle.Speed=1".data)).mMessagesProcessed =
          (processVssMessage convAlwaysFail updAlwaysOk emuSample
              ("Vehicle.Speed=1".data)).mMessagesConverted +
            (processVssMessage convAlwaysFail updAlwaysOk emuSample
                ("Vehicle.Speed=1".data)).mConversionErrors)) :=
  ⟨by decide,
   counters_step_exactly_one convAlwaysFail updAlwaysOk emuSample
     ("Vehicle.Speed=1".data) (by decide)⟩

/-- C3: a message is malformed exactly when it has no '=', its first '='
is at position 0 or at the final character, or its path or value is empty
after whitespace trimming; any split happens at the first '='; and a
malformed message processed by an active orchestrator is dropped with the
error counter incremented and every other field, the store included, left
unchanged. -/
theorem parseVssMessage_malformed_policy :
    (∀ cs, parseVssMessage cs = none ↔ malformedSpec cs) ∧
    (∀ cs p v, parseVssMessage cs = some (p, v) →
      ∃ i, findChar cs '=' = some i ∧
        p = trimWs (cs.take i) ∧ v = trimWs (cs.drop (i + 1))) ∧
    (∀ (conv : List Char → List Char → ConvResult) (upd : VehiclePropValue → UpdResult)
       (s : EmuState) (msg : List Char),
      isActive s = true → parseVssMessage msg = none →
      processVssMessage conv upd s msg =
        { s with mMessagesProcessed := s.mMessagesProcessed + 1
                 mConversionErrors := s.mConversionErrors + 1 }) := by
  refine ⟨?_, ?_, ?_⟩
  · intro cs
    unfold parseVssMessage malformedSpec
    cases h : findChar cs '=' with
    | none => simp
    | some i =>
      by_cases h0 : i = 0 ∨ i = cs.length - 1
      · have : (i = 0 || i = cs.length - 1) = true := by
          rcases h0 with h0 | h0 <;> simp [h0]
        simp [this]
        tauto
      · push_neg at h0
        have : (i = 0 || i = cs.length - 1) = false := by
          simp [h0.1, h0.2]
        simp [this, h0.1, h0.2, List.isEmpty_iff]
        tauto
  · intro cs p v h
    cases hf : findChar cs '=' with
    | none => simp [parseVssMessage, hf] at h
    | some i =>
      refine ⟨i, rfl, ?_⟩
      by_cases h0 : i = 0
      · simp [parseVssMessage, hf, h0] at h
      · by_cases h1 : i = cs.length - 1
        · simp [parseVssMessage, hf, h0, h1] at h
        · by_cases e1 : (trimWs (cs.take i)).isEmpty = true
          · simp [parseVssMessage, hf, h0, h1, e1] at h
          · by_cases e2 : (trimWs (cs.drop (i + 1))).isEmpty = true
            · simp [parseVssMessage, hf, h0, h1, e1, e2] at h
            · simp [parseVssMessage, hf, h0, h1, e1, e2] at h
              exact ⟨h.1.symm, h.2.symm⟩
  · intro conv upd s msg hAct hParse
    simp [processVssMessage, hAct, hParse]

/-- C3 witness: message "=value" is malformed; processing it in the
active sample state increments processed and errors, leaving the store
untouched. -/
theorem parseVssMessage_malformed_policy_witness :
    isActive emuSample = true ∧ parseVssMessage ("=value".data) = none ∧
    processVssMessage convAlwaysFail updAlwaysOk emuSample ("=value".data) =
      { emuSample with mMessagesProcessed := emuSample.mMessagesProcessed + 1
                       mConversionErrors := emuSample.mConversionErrors + 1 } :=
  ⟨by decide, by decide,
   parseVssMessage_malformed_policy.2.2 convAlwaysFail updAlwaysOk emuSample
     ("=value".data) (by decide) (by decide)⟩

/-- C4: a parsed message whose path has no rule in the registry is
counted as an error, the store is untouched, and processing is not fatal:
the remaining messages are processed from the state with only the two
counters advanced. -/
theorem unknown_signal_counted_not_fatal :
    ∀ (registry : List Char → Option ConversionRule) (upd : VehiclePropValue → UpdResult)
      (s : EmuState) (msg p v : List Char) (rest : List (List Char)),
      isActive s = true →
      parseVssMessage msg = some (p, v) →
      registry p = none →
      processVssMessage (convertVssToVhal registry) upd s msg =
        { s with mMessagesProcessed := s.mMessagesProcessed + 1
                 mConversionErrors := s.mConversionErrors + 1 } ∧
      (processVssMessage (convertVssToVhal registry) upd s msg).store = s.store ∧
      processAll (convertVssToVhal registry) upd s (msg :: rest) =
        processAll (convertVssToVhal registry) upd
          { s with mMessagesProcessed := s.mMessagesProcessed + 1
                   mConversionErrors := s.mConversionErrors + 1 } rest := by
  intro registry upd s msg p v rest hAct hParse hReg
  have hstep : processVssMessage (convertVssToVhal registry) upd s msg =
      { s with mMessagesProcessed := s.mMessagesProcessed + 1
               mConversionErrors := s.mConversionErrors + 1 } := by
    simp [processVssMessage, hAct, hParse, convertVssToVhal, hReg]
  refine ⟨hstep, by rw [hstep], ?_⟩
  simp [processAll, hstep]

/-- C4 witness: "Foo.Bar=1" against the empty registry in the active
sample state: only the processed and error counters move, the store stays
as it was, and the subsequent message list is still processed. -/
theorem unknown_signal_counted_not_fatal_witness :
    isActive emuSample = true ∧
    parseVssMessage ("Foo.Bar=1".data) = some ("Foo.Bar".data, "1".data) ∧
    registryEmpty ("Foo.Bar".data) = none ∧
    (processVssMessage (convertVssToVhal registryEmpty) updAlwaysOk emuSample
        ("Foo.Bar=1".data) =
      { emuSample with mMessagesProcessed := emuSample.mMessagesProcessed + 1
                       mConversionErrors := emuSample.mConversionErrors + 1 } ∧
     (processVssMessage (convertVssToVhal registryEmpty) updAlwaysOk emuSample
        ("Foo.Bar=1".data)).store = emuSample.store ∧
     processAll (convertVssToVhal registryEmpty) updAlwaysOk emuSample
        ["Foo.Bar=1".data, "Baz=2".data] =
       processAll (convertVssToVhal registryEmpty) updAlwaysOk
         { emuSample with mMessagesProcessed := emuSample.mMessagesProcessed + 1
                          mConversionErrors := emuSample.mConversionErrors + 1 }
         ["Baz=2".data]) :=
  ⟨by decide, by decide, rfl,
   unknown_signal_counted_not_fatal registryEmpty updAlwaysOk emuSample
     ("Foo.Bar=1".data) ("Foo.Bar".data) ("1".data) ["Baz=2".data]
     (by decide) (by decide) rfl⟩

/-- C5: boolean parsing maps, case-insensitively, exactly the four
literals true/1/yes/on to true and exactly false/0/no/off to false, and
every other string to a parse error; in particular "Yes" parses to true,
"0" to false, and "maybe" fails. -/
theorem stringToBool_exact_literals :
    (∀ s, stringToBool s = some true ↔
      (toLower s = "true".data ∨ toLower s = "1".data ∨
       toLower s = "yes".data ∨ toLower s = "on".data)) ∧
    (∀ s, stringToBool s = some false ↔
      (toLower s = "false".data ∨ toLower s = "0".data ∨
       toLower s = "no".data ∨ toLower s = "off".data)) ∧
    (∀ s, stringToBool s = none ↔
      ¬(toLower s = "true".data ∨ toLower s = "1".data ∨
        toLower s = "yes".data ∨ toLower s = "on".data) ∧
      ¬(toLower s = "false".data ∨ toLower s = "0".data ∨
        toLower s = "no".data ∨ toLower s = "off".data)) ∧
    stringToBool ("Yes".data) = some true ∧
    stringToBool ("0".data) = some false ∧
    stringToBool ("maybe".data) = none := by
  refine ⟨?_, ?_, ?_, by decide, by decide, by decide⟩
  · intro s
    constructor
    · intro h
      simp only [stringToBool] at h
      split_ifs at h with h1 h2
      · have h1' := h1; simp at h1'; tauto
      · simp at h
    · intro hd
      rcases hd with hd | hd | hd | hd <;> simp [stringToBool, hd]
  · intro s
    constructor
    · intro h
      simp only [stringToBool] at h
      split_ifs at h with h1 h2
      · simp at h
      · have h2' := h2; simp at h2'; tauto
    · intro hd
      rcases hd with hd | hd | hd | hd <;> simp [stringToBool, hd]
  · intro s
    constructor
    · intro h
      simp only [stringToBool] at h
      split_ifs at h with h1 h2
      exact ⟨by have h1' := h1; simp at h1'; tauto,
             by have h2' := h2; simp at h2'; tauto⟩
    · intro hd
      simp only [stringToBool]
      split_ifs with h1 h2
      · exfalso; have h1' := h1; simp at h1'; tauto
      · exfalso; have h2' := h2; simp at h2'; tauto
      · rfl

/-- C6: when the connected peer disconnects (recv observes 0 bytes), the
running flag and the listening server socket are untouched and only the
client connection is dropped, the next successful accept on that same
listening socket connects a new peer, and no iteration of the read loop,
from any state on any event, ever performs an outbound connect. -/
theorem peer_disconnect_returns_to_accepting :
    ∀ s : SockState, s.mRunning = true → s.mHasActiveConnection = true →
      (readLoopStep s NetEvent.recvZero).1.mRunning = true ∧
      (readLoopStep s NetEvent.recvZero).1.mHasActiveConnection = false ∧
      (readLoopStep s NetEvent.recvZero).1.serverSockOpen = s.serverSockOpen ∧
      (readLoopStep (readLoopStep s NetEvent.recvZero).1
          NetEvent.acceptOk).1.mHasActiveConnection = true ∧
      (∀ (t : SockState) (e : NetEvent),
        SockAction.connectOutbound ∉ (readLoopStep t e).2) := by
  intro s h1 h2
  refine ⟨?_, ?_, ?_, ?_, ?_⟩
  · simp [readLoopStep, h1, h2]
  · simp [readLoopStep, h1, h2]
  · simp [readLoopStep, h1, h2]
  · simp [readLoopStep, h1, h2]
  · intro t e
    rcases ht : t.mRunning <;> rcases hc : t.mHasActiveConnection <;>
      cases e <;> simp [readLoopStep, ht, hc]

/-- C6 witness: the running connected sample state, on peer disconnect,
stays running with the server socket open, and the following accept
reconnects. -/
theorem peer_disconnect_returns_to_accepting_witness :
    sockSample.mRunning = true ∧ sockSample.mHasActiveConnection = true ∧
    ((readLoopStep sockSample NetEvent.recvZero).1.mRunning = true ∧
     (readLoopStep sockSample NetEvent.recvZero).1.mHasActiveConnection = false ∧
     (readLoopStep sockSample NetEvent.recvZero).1.serverSockOpen =
       sockSample.serverSockOpen ∧
     (readLoopStep (readLoopStep sockSample NetEvent.recvZero).1
         NetEvent.acceptOk).1.mHasActiveConnection = true ∧
     (∀ (t : SockState) (e : NetEvent),
       SockAction.connectOutbound ∉ (readLoopStep t e).2)) :=
  ⟨rfl, rfl, peer_disconnect_returns_to_accepting sockSample rfl rfl⟩

/-- C7: stop on a running listener clears the running flag, closes both
sockets and joins the read thread, and the join terminates because a
non-running state makes every read loop iteration a no-op (the loop and
the blocking receive recheck the flag after each bounded timeout);
afterwards a start-stop-start sequence on the same endpoint succeeds at
every step, each stop leaving no live thread and each start leaving
exactly the restarted listener running. -/
theorem stop_cooperative_shutdown_restart :
    ∀ (s : SockState) (e : NetEvent), s.mRunning = true →
      ((stop s).mRunning = false ∧ (stop s).threadLive = false ∧
       (stop s).clientSockOpen = false ∧ (stop s).serverSockOpen = false) ∧
      (∀ t : SockState, t.mRunning = false → readLoopStep t e = (t, [])) ∧
      ((start true (stop s)).1 = true ∧
       (start true (stop s)).2.mRunning = true ∧
       (start true (stop s)).2.threadLive = true) ∧
      (stop (start true (stop s)).2).threadLive = false ∧
      (stop (start true (stop s)).2).mRunning = false ∧
      ((start true (stop (start true (stop s)).2)).1 = true ∧
       (start true (stop (start true (stop s)).2)).2.mRunning = true ∧
       (start true (stop (start true (stop s)).2)).2.threadLive = true) := by
  intro s e h
  have hstop : ∀ t : SockState, t.mRunning = true →
      (stop t).mRunning = false ∧ (stop t).threadLive = false ∧
      (stop t).clientSockOpen = false ∧ (stop t).serverSockOpen = false := by
    intro t ht
    simp only [stop, closeSocket, ht, Bool.not_true, Bool.false_eq_true, if_false]
    split_ifs <;> simp_all
  have hstart : ∀ t : SockState, t.mRunning = false →
      (start true t).1 = true ∧ (start true t).2.mRunning = true ∧
      (start true t).2.threadLive = true := by
    intro t ht
    simp [start, ht]
  refine ⟨hstop s h, ?_, ?_, ?_, ?_, ?_⟩
  · intro t ht
    simp [readLoopStep, ht]
  · exact hstart (stop s) (hstop s h).1
  · exact (hstop _ (hstart (stop s) (hstop s h).1).2.1).2.1
  · exact (hstop _ (hstart (stop s) (hstop s h).1).2.1).1
  · exact hstart _ (hstop _ (hstart (stop s) (hstop s h).1).2.1).1

/-- C7 witness: the running sample listener, stopped and restarted twice:
stop leaves no live thread and the restarts succeed. -/
theorem stop_cooperative_shutdown_restart_witness :
    sockSample.mRunning = true ∧
    (((stop sockSample).mRunning = false ∧ (stop sockSample).threadLive = false ∧
      (stop sockSample).clientSockOpen = false ∧ (stop sockSample).serverSockOpen = false) ∧
     (∀ t : SockState, t.mRunning = false →
       readLoopStep t NetEvent.recvTimeout = (t, [])) ∧
     ((start true (stop sockSample)).1 = true ∧
      (start true (stop sockSample)).2.mRunning = true ∧
      (start true (stop sockSample)).2.threadLive = true) ∧
     (stop (start true (stop sockSample)).2).threadLive = false ∧
     (stop (start true (stop sockSample)).2).mRunning = false ∧
     ((start true (stop (start true (stop sockSample)).2)).1 = true ∧
      (start true (stop (start true (stop sockSample)).2)).2.mRunning = true ∧
      (start true (stop (start true (stop sockSample)).2)).2.threadLive = true)) :=
  ⟨rfl, stop_cooperative_shutdown_restart sockSample NetEvent.recvTimeout rfl⟩

/-- C1: for every numeric rule whose bounds respect the data model
invariant (min ≤ max when both are present) and every raw input, the
generated conversion equals clamp(scale(parse(raw))): parsing first, then
linear scaling, then clamping to the present bounds — scaling strictly
before clamping. -/
theorem convertNumeric_scale_before_clamp :
    ∀ (rule : ConversionRule) (raw : List Char),
      (∀ lo hi, rule.minValue = some lo → rule.maxValue = some hi → lo ≤ hi) →
      convertNumericRule rule raw = convertSpecNumeric rule raw := by
  intro rule raw hb
  unfold convertNumericRule convertSpecNumeric
  cases hf : stringToFloat raw with
  | none => rfl
  | some v =>
    simp only [Option.map_some']
    congr 1
    have hscale :
        (if rule.unitOffset ≠ 0 then
            (if rule.unitMultiplier ≠ 1 then v * rule.unitMultiplier else v) +
              rule.unitOffset
          else (if rule.unitMultiplier ≠ 1 then v * rule.unitMultiplier else v)) =
          applyLinearScaling v rule.unitMultiplier rule.unitOffset := by
      unfold applyLinearScaling
      by_cases hm : rule.unitMultiplier = 1 <;> by_cases ho : rule.unitOffset = 0 <;>
        simp [hm, ho]
    rcases hmin : rule.minValue with _ | lo <;> rcases hmax : rule.maxValue with _ | hi
    · simp only [hmin, hmax, clampBounds, hscale]
    · simp only [hmin, hmax, clampBounds, hscale]
    · simp only [hmin, hmax, clampBounds, hscale]
    · simp only [hmin, hmax, clampBounds, clampFloat, hscale]
      have hlohi : lo ≤ hi := hb lo hi hmin hmax
      split_ifs <;> linarith

/-- C1 witness: the speed rule of the spec (multiplier 3.6, bounds [0, 300])
on input "100": scaled to 360 and then clamped to 300 — never 360. -/
theorem convertNumeric_scale_before_clamp_witness :
    convertNumericRule speedRule ("100".data) = some 300 ∧
    convertSpecNumeric speedRule ("100".data) = some 300 ∧
    convertNumericRule speedRule ("100".data) ≠ some 360 := by
  have hb : ∀ lo hi, speedRule.minValue = some lo → speedRule.maxValue = some hi →
      lo ≤ hi := by
    intro lo hi hlo hhi
    simp only [speedRule, Option.some.injEq] at hlo hhi
    rw [← hlo, ← hhi]
    norm_num
  have heq := convertNumeric_scale_before_clamp speedRule ("100".data) hb
  have h100 : stringToFloat ("100".data) = some 100 := rfl
  have hspec : convertSpecNumeric speedRule ("100".data) = some 300 := by
    norm_num [convertSpecNumeric, h100, clampBounds, speedRule, applyLinearScaling,
      clampFloat]
  refine ⟨heq.trans hspec, hspec, ?_⟩
  rw [heq, hspec]
  intro hcontra
  rw [Option.some_inj] at hcontra
  exact absurd hcontra (by norm_num)

end VssParsing
